import Mathlib

/-!
Shallow embedding of the spectral time-series processing pipeline of this
repository (`data_analysis/data_analysis.py`, driven by
`data_analysis/process_data.py`).

Modelling conventions:
* floats are exact rationals (`ℚ`); `NaN` is `Option.none` where it can occur;
* a pandas `DataFrame` of spectra is a `SpectralFrame`: wavelength row labels,
  time column labels and row-major cell values;
* the filesystem is a list of (path-as-segments, parsed file content) pairs;
* Python exceptions are `Except` values; a `try/except` that catches and logs
  is modelled by falling back to the unchanged state;
* `scipy.signal.savgol_filter` is external library code, kept abstract as a
  function parameter `savgol : ℕ → ℕ → List ℚ → List ℚ` (window, polyorder,
  signal); the repository's code is modelled around it unchanged.
-/

/-- Planck constant times speed of light in eV*nm (`HC_CONST`). -/
def HC : ℚ := 1239.84193

/-- numpy's half-to-even rounding of a float to an integer. -/
def roundHE (q : ℚ) : ℤ :=
  let f := ⌊q⌋
  let r := q - (f : ℚ)
  if r < 1/2 then f
  else if 1/2 < r then f + 1
  else if f % 2 = 0 then f else f + 1

/-- pandas `.round(1)` on one value. -/
def round1 (q : ℚ) : ℚ := (roundHE (10 * q) : ℚ) / 10

/-- pandas `.round(2)` on one value. -/
def round2 (q : ℚ) : ℚ := (roundHE (100 * q) : ℚ) / 100

/-- pandas column mean (`.mean(axis=0)`): `NaN` (here `none`) on an empty column. -/
def meanOpt (xs : List ℚ) : Option ℚ :=
  if xs.isEmpty then none else some (xs.sum / (xs.length : ℚ))

/-- Helper for `argmaxList`: scan the tail holding the best index and value so far. -/
def argmaxAux : List ℚ → ℕ → ℕ → ℚ → ℕ
  | [], _, best, _ => best
  | x :: xs, i, best, bv => if bv < x then argmaxAux xs (i+1) i x else argmaxAux xs (i+1) best bv

/-- numpy `argmax`: first index of the maximum (0 on the empty list, where numpy raises). -/
def argmaxList : List ℚ → ℕ
  | [] => 0
  | x :: xs => argmaxAux xs 1 0 x

/-- numpy `arange(0, stop, step)` over naturals: the multiples of `step` below `stop`.
For `step = 0` numpy raises; the claims only use `step ≥ 1`. -/
def arangeNat (stop step : ℕ) : List ℕ :=
  (List.range ((stop + step - 1) / step)).map (· * step)

/-- A pandas DataFrame of spectra as read with `index_col=0`: wavelength row
labels, time column labels, row-major cell values. -/
structure SpectralFrame where
  index : List ℚ
  cols : List ℚ
  data : List (List ℚ)
deriving DecidableEq

/-- There is one data row per row label (true of every frame read from a CSV). -/
def SpectralFrame.rowsAgree (f : SpectralFrame) : Prop := f.data.length = f.index.length

/-- The rows of a frame as (wavelength label, values) pairs. -/
def SpectralFrame.toRows (f : SpectralFrame) : List (ℚ × List ℚ) := f.index.zip f.data

/-- Rebuild a frame from rows (used for row filtering and sorting). -/
def frameOfRows (cols : List ℚ) (rs : List (ℚ × List ℚ)) : SpectralFrame :=
  { index := rs.map Prod.fst, cols := cols, data := rs.map Prod.snd }

/-- Boolean row selection on the wavelength index, e.g. `df[df.index >= 500]`. -/
def SpectralFrame.rowFilter (f : SpectralFrame) (p : ℚ → Bool) : SpectralFrame :=
  frameOfRows f.cols (f.toRows.filter (fun r => p r.1))

/-- Column `j` of a frame as the list of values down the wavelength axis. -/
def colAt (f : SpectralFrame) (j : ℕ) : List ℚ := f.data.map (fun row => row.getD j 0)

/-- One row of the global `reaction_parameters.csv` table. -/
structure ReactionParams where
  reaction_id : ℤ
  num_measurements : ℕ
  frequency : ℕ
deriving DecidableEq

/-- Value of a (non-empty, all-digit) character list, as Python `int` would parse it. -/
def digitsToNat (cs : List Char) : Option ℕ :=
  if cs.isEmpty then none
  else cs.foldl (fun acc c =>
    acc.bind (fun n => if c.isDigit then some (n * 10 + (c.toNat - 48)) else none)) (some 0)

/-- `int(folder.split('_')[0])`: parse the leading integer token of the folder
name; `none` models the `ValueError` path (caught and logged by the caller).
Folder names carry non-negative decimal ids, so only digits are modelled. -/
def parseReactionId (folder : String) : Option ℤ :=
  (digitsToNat (folder.data.takeWhile (fun c => !(c == ('_'))))).map Int.ofNat

/-- `reaction_params_df[reaction_params_df['reaction_id'] == reaction_id].iloc[0]`:
first matching row, `none` models the `IndexError` path (caught by the caller). -/
def lookupRun (table : List ReactionParams) (folder : String) : Option ReactionParams :=
  (parseReactionId folder).bind (fun rid => table.find? (fun r => decide (r.reaction_id = rid)))

/-- The theoretical time axis a run gets, when its reaction id parses and is in
the table: `np.arange(0, params['num_measurements'], params['frequency'])`. -/
def timeAxisFor (table : List ReactionParams) (folder : String) : Option (List ℕ) :=
  (lookupRun table folder).map (fun p => arangeNat p.num_measurements p.frequency)

/-- `standardize_time_axis` per-frame core: compare the frame's column count with
the theoretical time axis; on mismatch right-truncate both to the shorter
length (`df.iloc[:, :min_len]`, `time_points[:min_len]`); then assign the
(possibly truncated) time values as the column labels. -/
def standardize_frame (df : SpectralFrame) (timePoints : List ℕ) : SpectralFrame :=
  if df.cols.length = timePoints.length then
    { index := df.index, cols := timePoints.map (fun (n : ℕ) => (n : ℚ)), data := df.data }
  else
    let minLen := min df.cols.length timePoints.length
    { index := df.index
      cols := (timePoints.take minLen).map (fun (n : ℕ) => (n : ℚ))
      data := df.data.map (fun row => row.take minLen) }

/-- Default `window_length` of `apply_smoothing`. -/
def smoothingWindowDefault : ℕ := 11

/-- Default `polyorder` of `apply_smoothing`. -/
def smoothingPolyorderDefault : ℕ := 2

/-- Type of the externally supplied 1-D Savitzky-Golay filter
`scipy.signal.savgol_filter(x, window_length, polyorder)`, kept abstract:
arguments are window length, polynomial order and the signal. -/
abbrev SavGol := ℕ → ℕ → List ℚ → List ℚ

/-- `apply_smoothing` per-frame core: round the wavelength index labels to one
decimal, run the filter along axis 0 (each timestamp column independently),
keep the original column labels, and round the output values to two decimals.
Cell `(i, j)` of the output is entry `i` of the filtered column `j`. -/
def smooth_frame (savgol : SavGol) (window polyorder : ℕ) (df : SpectralFrame) : SpectralFrame :=
  let smoothedCols := (List.range df.cols.length).map (fun j => savgol window polyorder (colAt df j))
  { index := df.index.map round1
    cols := df.cols
    data := (List.range df.index.length).map (fun i =>
      smoothedCols.map (fun c => round2 (c.getD i 0))) }

/-- Default `stitch_wavelength` of `merge_vis_nir_spectra`. -/
def stitchWavelengthDefault : ℚ := 930

/-- Default `stitch_window` of `merge_vis_nir_spectra`. -/
def stitchWindowDefault : ℚ := 10

/-- Default `min_signal_threshold` of `merge_vis_nir_spectra`. -/
def minSignalDefault : ℚ := 50

/-- `df_nir.columns.intersection(df_vis.columns)`: shared timestamp labels, in
the order of the NIR frame. -/
def commonCols (nir vis : SpectralFrame) : List ℚ :=
  nir.cols.filter (fun c => decide (c ∈ vis.cols))

/-- `df[cs]`: reindex a frame to the given column labels (first matching
position per label; labels taken from the frame's own columns never miss). -/
def SpectralFrame.selectCols (f : SpectralFrame) (cs : List ℚ) : SpectralFrame :=
  { index := f.index, cols := cs,
    data := f.data.map (fun row =>
      cs.map (fun c => row.getD (f.cols.findIdx (fun c2 => decide (c2 = c))) 0)) }

/-- The NIR frame restricted to the shared timestamp columns. -/
def alignedNir (nir vis : SpectralFrame) : SpectralFrame := nir.selectCols (commonCols nir vis)

/-- The VIS frame restricted to the shared timestamp columns. -/
def alignedVis (nir vis : SpectralFrame) : SpectralFrame := vis.selectCols (commonCols nir vis)

/-- Rows of `f` in the symmetric stitch overlap window `[c - w, c + w]`. -/
def overlapRegion (f : SpectralFrame) (c w : ℚ) : SpectralFrame :=
  f.rowFilter (fun wl => decide (c - w ≤ wl) && decide (wl ≤ c + w))

/-- Mean NIR intensity of shared column `j` inside the overlap window. -/
def nirMeanAt (nir vis : SpectralFrame) (c w : ℚ) (j : ℕ) : Option ℚ :=
  meanOpt (colAt (overlapRegion (alignedNir nir vis) c w) j)

/-- Mean VIS intensity of shared column `j` inside the overlap window. -/
def visMeanAt (nir vis : SpectralFrame) (c w : ℚ) (j : ℕ) : Option ℚ :=
  meanOpt (colAt (overlapRegion (alignedVis nir vis) c w) j)

/-- Per-column scaling factor:
`np.where(vis_means > min_signal_threshold, nir_means / vis_means, 1.0)` then
`.fillna(1.0).replace([inf, -inf], 1.0)`. A `NaN` visible mean (empty overlap)
fails the `>` test, and a `NaN` quotient is filled, so both give 1.0; in the
taken quotient branch the divisor exceeds the threshold, hence is nonzero,
so no infinity arises there. -/
def scalingFactorAt (nir vis : SpectralFrame) (c w minSig : ℚ) (j : ℕ) : ℚ :=
  match visMeanAt nir vis c w j with
  | none => 1
  | some v =>
    if minSig < v then
      match nirMeanAt nir vis c w j with
      | none => 1
      | some n => n / v
    else 1

/-- `df_vis.multiply(scaling_factors, axis=1)`: scale every value of shared
column `j` by that column's factor. -/
def scaledVis (nir vis : SpectralFrame) (c w minSig : ℚ) : SpectralFrame :=
  let va := alignedVis nir vis
  { index := va.index, cols := va.cols,
    data := va.data.map (fun row =>
      (List.range row.length).map (fun j => row.getD j 0 * scalingFactorAt nir vis c w minSig j)) }

/-- Insert one labelled row into a row list sorted by wavelength label. -/
def insertRow (x : ℚ × List ℚ) : List (ℚ × List ℚ) → List (ℚ × List ℚ)
  | [] => [x]
  | y :: ys => if x.1 ≤ y.1 then x :: y :: ys else y :: insertRow x ys

/-- `.sort_index()`: sort rows by wavelength label ascending. -/
def sortRows : List (ℚ × List ℚ) → List (ℚ × List ℚ)
  | [] => []
  | x :: xs => insertRow x (sortRows xs)

/-- `merge_vis_nir_spectra` two-band core: align both frames on the shared
columns, scale the visible frame, keep scaled-visible rows strictly below the
stitch centre and NIR rows at or above it, concatenate and sort by wavelength. -/
def mergeFrames (nir vis : SpectralFrame) (c w minSig : ℚ) : SpectralFrame :=
  let sv := scaledVis nir vis c w minSig
  let na := alignedNir nir vis
  let partVis := sv.toRows.filter (fun r => decide (r.1 < c))
  let partNir := na.toRows.filter (fun r => decide (c ≤ r.1))
  frameOfRows (commonCols nir vis) (sortRows (partVis ++ partNir))

/-- Default `intensity_threshold` of `extract_spectral_features`. -/
def intensityThresholdDefault : ℚ := 50

/-- Default `time_threshold` of `extract_spectral_features`. -/
def timeThresholdDefault : ℚ := 100

/-- One row of `Emission_features_nir.csv`; absent values are `NaN` in the file. -/
structure FeatureRecord where
  timestamp : ℚ
  max_intensity : ℚ
  peak_wavelength : Option ℚ
  fwhm_ev : Option ℚ
deriving DecidableEq

/-- `energies = HC_CONST / wavelengths`. -/
def energiesOf (wavelengths : List ℚ) : List ℚ := wavelengths.map (fun l => HC / l)

/-- Jacobian-transformed intensity `I(E) = I(λ) * λ² / hc`, computed as in the
source via `intensity * (HC_CONST / energies ** 2)`. -/
def intensityEv (wavelengths intensity : List ℚ) : List ℚ :=
  List.zipWith (fun iv jf => iv * jf) intensity
    ((energiesOf wavelengths).map (fun e => HC / (e * e)))

/-- `np.argmax(intensity_ev)`: the peak index recomputed in energy space. -/
def energyPeakIdx (wavelengths intensity : List ℚ) : ℕ :=
  argmaxList (intensityEv wavelengths intensity)

/-- `scipy.interpolate.interp1d` through two points, evaluated at `h`: linear
interpolation; evaluation outside the x-range raises `ValueError` (caught by
the source as an absent linewidth) and coincident x-values give `NaN`, both
modelled as `none`. -/
def interpAt (x1 y1 x2 y2 h : ℚ) : Option ℚ :=
  if min x1 x2 ≤ h ∧ h ≤ max x1 x2 ∧ x1 ≠ x2 then
    some (y1 + (h - x1) * (y2 - y1) / (x2 - x1))
  else none

/-- `np.where(left_mask & (intensity_ev < half_max))[0][-1]`: last index left of
the energy-space peak whose value is below half maximum (`none` = `IndexError`). -/
def lastIdxBelow (iev : List ℚ) (pk : ℕ) (half : ℚ) : Option ℕ :=
  ((List.range iev.length).filter
    (fun i => decide (i < pk) && decide (iev.getD i 0 < half))).getLast?

/-- `np.where(right_mask & (intensity_ev < half_max))[0][0]`: first index right of
the energy-space peak whose value is below half maximum (`none` = `IndexError`). -/
def firstIdxBelowAfter (iev : List ℚ) (pk : ℕ) (half : ℚ) : Option ℕ :=
  ((List.range iev.length).filter
    (fun i => decide (pk < i) && decide (iev.getD i 0 < half))).head?

/-- The FWHM (eV) computation of `extract_spectral_features`: locate the
half-maximum crossing brackets around the energy-space peak, linearly
interpolate the crossing energy on each side, and return the absolute
difference; any `IndexError`/`ValueError` on the way yields an absent value. -/
def computeFwhm (wavelengths intensity : List ℚ) : Option ℚ :=
  let energies := energiesOf wavelengths
  let iev := intensityEv wavelengths intensity
  let pk := argmaxList iev
  let half := iev.getD pk 0 / 2
  match lastIdxBelow iev pk half, firstIdxBelowAfter iev pk half with
  | some l, some r =>
    match interpAt (iev.getD l 0) (energies.getD l 0) (iev.getD (l+1) 0)
            (energies.getD (l+1) 0) half,
          interpAt (iev.getD (r-1) 0) (energies.getD (r-1) 0) (iev.getD r 0)
            (energies.getD r 0) half with
    | some eL, some eR => some |eL - eR|
    | _, _ => none
  | _, _ => none

/-- The body of the per-timestamp loop of `extract_spectral_features`: raw
wavelength-space peak, noise gate, then energy-space analysis. -/
def extractColumn (wavelengths : List ℚ) (t : ℚ) (intensity : List ℚ)
    (ithr tthr : ℚ) : FeatureRecord :=
  let peakIdx := argmaxList intensity
  let peakInt := intensity.getD peakIdx 0
  let peakWl := wavelengths.getD peakIdx 0
  if peakInt < ithr ∧ tthr < t then
    { timestamp := t, max_intensity := peakInt, peak_wavelength := none, fwhm_ev := none }
  else
    { timestamp := t, max_intensity := peakInt, peak_wavelength := some peakWl,
      fwhm_ev := computeFwhm wavelengths intensity }

/-- `extract_spectral_features` frame core: one record per timestamp column. -/
def extractFeatures (f : SpectralFrame) (ithr tthr : ℚ) : List FeatureRecord :=
  (List.range f.cols.length).map (fun j =>
    extractColumn f.index (f.cols.getD j 0) (colAt f j) ithr tthr)

/-- Default `window_length` of `compile_experiment_traces`. -/
def compileWindowDefault : ℕ := 11

/-- Default `polyorder` of `compile_experiment_traces`. -/
def compilePolyorderDefault : ℕ := 2

/-- The three aggregated feature channels (the keys of `collector`). -/
inductive FeatureChannel where
  | maxIntensity
  | peakWavelength
  | fwhmEv
deriving DecidableEq

/-- `df[metric]` for one record: the channel's value, `none` for a NaN cell. -/
def channelValue : FeatureChannel → FeatureRecord → Option ℚ
  | .maxIntensity, r => some r.max_intensity
  | .peakWavelength, r => r.peak_wavelength
  | .fwhmEv, r => r.fwhm_ev

/-- Last valid (non-NaN) entry of a float series, with its position. -/
def lastSome : List (Option ℚ) → Option (ℕ × ℚ)
  | [] => none
  | x :: rest =>
    match lastSome rest with
    | some p => some (p.1 + 1, p.2)
    | none => x.map (fun v => (0, v))

/-- First valid (non-NaN) entry of a float series, with its position. -/
def firstSome : List (Option ℚ) → Option (ℕ × ℚ)
  | [] => none
  | some v :: _ => some (0, v)
  | none :: rest => (firstSome rest).map (fun p => (p.1 + 1, p.2))

/-- pandas `Series.interpolate()` (default linear method) at position `j`:
valid entries are kept; a NaN bracketed by a previous valid entry at position
`i` and a next valid entry at position `j+1+k` is linearly interpolated over
*positions* (the default method ignores the index); a NaN after the last valid
entry is clamped to that value; leading NaN entries stay NaN. -/
def interpPos (xs : List (Option ℚ)) (j : ℕ) : Option ℚ :=
  match xs.getD j none with
  | some v => some v
  | none =>
    match lastSome (xs.take j), firstSome (xs.drop (j+1)) with
    | some iv, some kv =>
      some (iv.2 + ((j : ℚ) - (iv.1 : ℚ)) * (kv.2 - iv.2) /
        (((j + 1 + kv.1 : ℕ) : ℚ) - (iv.1 : ℚ)))
    | some iv, none => some iv.2
    | none, _ => none

/-- `Series.interpolate()` over a whole series. -/
def interpolateLinear (xs : List (Option ℚ)) : List (Option ℚ) :=
  (List.range xs.length).map (interpPos xs)

/-- Modelled from the spec's words, for comparison with `interpolateLinear`:
"fill missing (gated-out) values by linear interpolation over the timestamp
axis" — the same fill but with distances measured along the timestamp axis
`ts` instead of by position. -/
def interpTsPos (ts : List ℚ) (xs : List (Option ℚ)) (j : ℕ) : Option ℚ :=
  match xs.getD j none with
  | some v => some v
  | none =>
    match lastSome (xs.take j), firstSome (xs.drop (j+1)) with
    | some iv, some kv =>
      some (iv.2 + (ts.getD j 0 - ts.getD iv.1 0) * (kv.2 - iv.2) /
        (ts.getD (j + 1 + kv.1) 0 - ts.getD iv.1 0))
    | some iv, none => some iv.2
    | none, _ => none

/-- The timestamp-axis interpolation of the spec over a whole series. -/
def interpolateByTimestamp (ts : List ℚ) (xs : List (Option ℚ)) : List (Option ℚ) :=
  (List.range xs.length).map (interpTsPos ts xs)

/-- pandas `.bfill()`: each NaN takes the next valid value after it, if any. -/
def bfillL (xs : List (Option ℚ)) : List (Option ℚ) :=
  (List.range xs.length).map (fun j =>
    match xs.getD j none with
    | some v => some v
    | none => (firstSome (xs.drop (j+1))).map (fun p => p.2))

/-- pandas `.ffill()`: each NaN takes the last valid value before it, if any. -/
def ffillL (xs : List (Option ℚ)) : List (Option ℚ) :=
  (List.range xs.length).map (fun j =>
    match xs.getD j none with
    | some v => some v
    | none => (lastSome (xs.take j)).map (fun p => p.2))

/-- `savgol_filter` on a float series that may still hold NaN: a NaN-free series
is filtered (unwrapped and rewrapped); a series still holding NaN after the
fill chain is all-NaN, and convolving NaN gives all-NaN. -/
def savgolOpt (savgol : SavGol) (w p : ℕ) (xs : List (Option ℚ)) : List (Option ℚ) :=
  if xs.all (fun x => x.isSome) then (savgol w p xs.reduceOption).map some
  else xs.map (fun _ => none)

/-- `compile_experiment_traces` per-run, per-channel trace processing:
`savgol_filter(df[metric].interpolate().bfill().ffill(), window_length, polyorder)`. -/
def processedSeries (savgol : SavGol) (w p : ℕ) (rs : List FeatureRecord)
    (ch : FeatureChannel) : List (Option ℚ) :=
  savgolOpt savgol w p (ffillL (bfillL (interpolateLinear (rs.map (channelValue ch)))))

/-- Insert into a sorted rational list. -/
def insertQ (x : ℚ) : List ℚ → List ℚ
  | [] => [x]
  | y :: ys => if x ≤ y then x :: y :: ys else y :: insertQ x ys

/-- Ascending insertion sort on rationals. -/
def sortQ : List ℚ → List ℚ
  | [] => []
  | x :: xs => insertQ x (sortQ xs)

/-- Keep the first occurrence of each rational. -/
def dedupQAux : List ℚ → List ℚ → List ℚ
  | _, [] => []
  | seen, x :: xs => if x ∈ seen then dedupQAux seen xs else x :: dedupQAux (x :: seen) xs

/-- Remove duplicates, keeping first occurrences. -/
def dedupQ (xs : List ℚ) : List ℚ := dedupQAux [] xs

/-- Row index of `pd.concat(series_list, axis=1)` (outer join): one shared index
is kept as-is; differing indexes give the sorted, deduplicated union. -/
def unionIndex (tss : List (List ℚ)) : List ℚ :=
  match tss with
  | [] => []
  | t0 :: rest =>
    if rest.all (fun l => decide (l = t0)) then t0 else sortQ (dedupQ (tss.flatten))

/-- One aggregated summary file: timestamps down, one column per run. -/
structure SummaryTable where
  index : List ℚ
  cols : List String
  data : List (List (Option ℚ))
deriving DecidableEq

/-- Value of one run's processed series at timestamp `t` (`none` when the run
has no such timestamp — the NaN the outer join inserts). -/
def seriesAt (ts : List ℚ) (vals : List (Option ℚ)) (t : ℚ) : Option ℚ :=
  match ts.findIdx? (fun x => decide (x = t)) with
  | some k => vals.getD k none
  | none => none

/-- `pd.concat(series_list, axis=1)` for one feature channel over the runs that
had a feature file: one column per run named after its folder, rows the outer
join of the per-run timestamp indexes. -/
def compileChannel (savgol : SavGol) (w p : ℕ)
    (tables : List (String × List FeatureRecord)) (ch : FeatureChannel) : SummaryTable :=
  let runs := tables.map (fun tab =>
    (tab.1, tab.2.map (fun r => r.timestamp), processedSeries savgol w p tab.2 ch))
  let idx := unionIndex (runs.map (fun r => r.2.1))
  { index := idx
    cols := runs.map (fun r => r.1)
    data := idx.map (fun t => runs.map (fun r => seriesAt r.2.1 r.2.2 t)) }

/-- Cell of a summary table at row label `t` (first occurrence) and column `i`. -/
def cellAt (T : SummaryTable) (t : ℚ) (i : ℕ) : Option ℚ :=
  match T.index.findIdx? (fun x => decide (x = t)) with
  | some pos => (T.data.getD pos []).getD i none
  | none => none

/-- Does a file name match the glob pattern `pfx*.csv`, i.e. is it
`pfx ++ mid ++ ".csv"` for a possibly empty `mid`? -/
def globMatch (pfx name : String) : Bool :=
  pfx.data.isPrefixOf name.data && (".csv").data.isSuffixOf (name.data.drop pfx.data.length)

/-- `_get_file_by_prefix` over a directory listing in glob order: raise
`FileNotFoundError` (`Except.error`) when nothing matches, else silently take
the first match, with no uniqueness check. -/
def getFileByPfx (files : List String) (pfx : String) : Except Unit String :=
  match files.filter (globMatch pfx) with
  | [] => .error ()
  | f :: _ => .ok f

/-- Parsed content of one file, by schema; `malformed` is a file that
`pandas.read_csv` raises on. -/
inductive FileData where
  | frame (f : SpectralFrame)
  | features (rs : List FeatureRecord)
  | ptable (t : List ReactionParams)
  | summary (t : SummaryTable)
  | malformed
deriving DecidableEq

/-- The Python exceptions the pipeline can meet at its file boundaries. -/
inductive PyErr where
  | fileNotFound
  | parseError
  | schemaError
deriving DecidableEq

/-- A path as its segments, root first (so no string splitting is needed). -/
abbrev FPath := List String

/-- The filesystem: full paths with parsed contents, in directory-listing order. -/
abbrev FS := List (FPath × FileData)

/-- Content at a path, if the file exists. -/
def FS.fileAt (fs : FS) (p : FPath) : Option FileData :=
  (fs.find? (fun e => decide (e.1 = p))).map (fun e => e.2)

/-- `Path.exists()`. -/
def FS.pathExists (fs : FS) (p : FPath) : Bool := (fs.fileAt p).isSome

/-- `to_csv`: (over)write one file. -/
def FS.write (fs : FS) (p : FPath) (d : FileData) : FS :=
  (p, d) :: fs.filter (fun e => !(decide (e.1 = p)))

/-- `pd.read_csv(path, index_col=0)` at a spectra path: a missing file raises
`FileNotFoundError`, an unparseable one `ParserError`; the pipeline never reads
a file of another schema here, modelled as an error. -/
def FS.readFrame (fs : FS) (p : FPath) : Except PyErr SpectralFrame :=
  match fs.fileAt p with
  | none => .error .fileNotFound
  | some (.frame f) => .ok f
  | some .malformed => .error .parseError
  | some _ => .error .schemaError

/-- `pd.read_csv` then `set_index('timestamp')` at a feature-file path; a frame
of another schema would raise a `KeyError`, modelled as an error. -/
def FS.readFeatures (fs : FS) (p : FPath) : Except PyErr (List FeatureRecord) :=
  match fs.fileAt p with
  | none => .error .fileNotFound
  | some (.features rs) => .ok rs
  | some .malformed => .error .parseError
  | some _ => .error .schemaError

/-- `pd.read_csv` of the reaction parameters table. -/
def FS.readPTable (fs : FS) (p : FPath) : Except PyErr (List ReactionParams) :=
  match fs.fileAt p with
  | none => .error .fileNotFound
  | some (.ptable t) => .ok t
  | some .malformed => .error .parseError
  | some _ => .error .schemaError

/-- Is `p` a file directly inside directory `d`? -/
def inDir (d : FPath) (p : FPath) : Bool :=
  decide (p.length = d.length + 1) && decide (p.take d.length = d)

/-- The file name component of a path. -/
def lastSeg (p : FPath) : String := p.getLast?.getD ""

/-- `directory.glob(pfx + "*.csv")` over the filesystem, then `files[0]`:
`_get_file_by_prefix` lifted to full paths. -/
def FS.getByPfx (fs : FS) (d : FPath) (pfx : String) : Except PyErr FPath :=
  match fs.filterMap (fun e =>
      if inDir d e.1 && globMatch pfx (lastSeg e.1) then some e.1 else none) with
  | [] => .error .fileNotFound
  | p :: _ => .ok p

/-- `NIR_PREFIX`. -/
def nirPfx : String := "Emission_nir"

/-- `VIS_PREFIX`. -/
def visPfx : String := "Emission_vis"

/-- One band of `standardize_time_axis`: locate the raw corrected file by
prefix, read it (the numeric index is already modelled as numeric, covering
`pd.to_numeric(..., errors='coerce')`), drop visible-band rows below the
500 nm cutoff and standardize against the time axis; the value is the cleaned
frame to persist. -/
def stdBandFrame (fs : FS) (rawDir : FPath) (pfx2 : String) (isVis : Bool)
    (tp : List ℕ) : Except PyErr SpectralFrame := do
  let file ← fs.getByPfx rawDir (pfx2 ++ ("_corrected"))
  let df ← fs.readFrame file
  let df := if isVis then df.rowFilter (fun wl => decide (500 ≤ wl)) else df
  pure (standardize_frame df tp)

/-- One band of `standardize_time_axis` with its two `except` clauses: a
`FileNotFoundError` is warned about and any other exception logged, both
leaving the filesystem unchanged; on success the cleaned file is persisted. -/
def stdBand (fs : FS) (rawDir outDir : FPath) (pfx2 : String) (isVis : Bool)
    (tp : List ℕ) : FS :=
  match stdBandFrame fs rawDir pfx2 isVis tp with
  | .ok f => fs.write (outDir ++ [pfx2 ++ ("_cleaned.csv")]) (.frame f)
  | .error _ => fs

/-- `standardize_time_axis` over one run folder: parse the reaction id out of
the folder name and look it up (failures are warned about and skip the run),
build the theoretical time axis, then process the NIR and VIS bands. -/
def standardize_time_axis_fs (fs : FS) (dir : FPath) (folder : String)
    (table : List ReactionParams) : FS :=
  match lookupRun table folder with
  | none => fs
  | some ps =>
    let tp := arangeNat ps.num_measurements ps.frequency
    let rawDir := dir ++ [folder, ("corrected_data")]
    let outDir := dir ++ [folder, ("cleaned_data")]
    let fs1 := stdBand fs rawDir outDir nirPfx false tp
    stdBand fs1 rawDir outDir visPfx true tp

/-- One band of `apply_smoothing`: skip a missing cleaned file (`continue`);
read, filter and persist, with any exception caught and logged per band. -/
def smoothBand (savgol : SavGol) (w p : ℕ) (fs : FS) (inDirP outDir : FPath)
    (pfx2 : String) : FS :=
  let inputFile := inDirP ++ [pfx2 ++ ("_cleaned.csv")]
  if !(fs.pathExists inputFile) then fs
  else
    match fs.readFrame inputFile with
    | .ok df => fs.write (outDir ++ [pfx2 ++ ("_smoothed.csv")])
        (.frame (smooth_frame savgol w p df))
    | .error _ => fs

/-- `apply_smoothing` over one run folder. -/
def apply_smoothing_fs (savgol : SavGol) (fs : FS) (dir : FPath) (folder : String)
    (w p : ℕ) : FS :=
  let inDirP := dir ++ [folder, ("cleaned_data")]
  let outDir := dir ++ [folder, ("smoothed_data")]
  smoothBand savgol w p (smoothBand savgol w p fs inDirP outDir nirPfx) inDirP outDir visPfx

/-- Body of `merge_vis_nir_spectra`: nothing to do when neither band exists;
pass a single band through unchanged; else merge the two frames. The value is
the merged frame to persist, if any. -/
def mergeResult (fs : FS) (inDirP : FPath) : Except PyErr (Option SpectralFrame) := do
  let pn := inDirP ++ [nirPfx ++ ("_smoothed.csv")]
  let pv := inDirP ++ [visPfx ++ ("_smoothed.csv")]
  if !(fs.pathExists pn) && !(fs.pathExists pv) then pure none
  else if !(fs.pathExists pv) then do
    let f ← fs.readFrame pn
    pure (some f)
  else if !(fs.pathExists pn) then do
    let f ← fs.readFrame pv
    pure (some f)
  else do
    let fn ← fs.readFrame pn
    let fv ← fs.readFrame pv
    pure (some (mergeFrames fn fv
      stitchWavelengthDefault stitchWindowDefault minSignalDefault))

/-- `merge_vis_nir_spectra` over one run folder: the whole body sits in one
`try/except`, so any exception only aborts this run's merge; on success the
single merged file is persisted. -/
def merge_vis_nir_fs (fs : FS) (dir : FPath) (folder : String) : FS :=
  match mergeResult fs (dir ++ [folder, ("smoothed_data")]) with
  | .ok (some f) =>
    fs.write (dir ++ [folder, ("merged_data"), ("Emission_merged.csv")]) (.frame f)
  | .ok none => fs
  | .error _ => fs

/-- `plot_reaction_heatmap`: reads the smoothed/merged files and renders PNG
images, each configuration inside its own `try/except`; the images are never
read by a later stage, so the data filesystem is unchanged. -/
def plot_fs (fs : FS) (_d : FPath) (_g : String) : FS := fs

/-- `extract_spectral_features` over one run folder: produce no output when the
smoothed NIR file is absent; otherwise read it — with NO enclosing `try/except`
anywhere in this function or its caller's loop, so a read failure propagates —
and persist one feature record per timestamp column. -/
def extract_features_fs (fs : FS) (dir : FPath) (folder : String)
    (ithr tthr : ℚ) : Except PyErr FS :=
  let inputFile := dir ++ [folder, ("smoothed_data"), ("Emission_nir_smoothed.csv")]
  if !(fs.pathExists inputFile) then .ok fs
  else do
    let df ← fs.readFrame inputFile
    pure (fs.write (dir ++ [folder, ("Emission_features_nir.csv")])
      (.features (extractFeatures df ithr tthr)))

/-- The collection loop of `compile_experiment_traces`: runs without a feature
file are skipped; reading an existing file has NO enclosing `try/except`, so a
failure propagates. -/
def collectTables (fs : FS) (dir : FPath) :
    List String → Except PyErr (List (String × List FeatureRecord))
  | [] => .ok []
  | folder :: rest =>
    let p := dir ++ [folder, ("Emission_features_nir.csv")]
    if !(fs.pathExists p) then collectTables fs dir rest
    else do
      let rs ← fs.readFeatures p
      let more ← collectTables fs dir rest
      pure ((folder, rs) :: more)

/-- `compile_experiment_traces`: collect every run's feature records, then — if
any run contributed — write the three per-channel summary files. -/
def compile_traces_fs (savgol : SavGol) (fs : FS) (dir : FPath)
    (folders : List String) (w p : ℕ) : Except PyErr FS := do
  let tables ← collectTables fs dir folders
  if tables.isEmpty then pure fs
  else
    let f1 := fs.write (dir ++ [("summary_max_intensity_nir.csv")])
      (.summary (compileChannel savgol w p tables .maxIntensity))
    let f2 := f1.write (dir ++ [("summary_peak_wavelength_nir.csv")])
      (.summary (compileChannel savgol w p tables .peakWavelength))
    pure (f2.write (dir ++ [("summary_fwhm_ev_nir.csv")])
      (.summary (compileChannel savgol w p tables .fwhmEv)))

/-- Keep the first occurrence of each name. -/
def dedupFirstAux : List String → List String → List String
  | _, [] => []
  | seen, x :: xs => if x ∈ seen then dedupFirstAux seen xs else x :: dedupFirstAux (x :: seen) xs

/-- Remove duplicate names, keeping first occurrences. -/
def dedupFirst (xs : List String) : List String := dedupFirstAux [] xs

/-- The reaction folders of the data directory: first-level subdirectories
(those under which some file exists) whose name starts with a digit. -/
def FS.subdirs (fs : FS) (dir : FPath) : List String :=
  dedupFirst (fs.filterMap (fun e =>
    if decide (dir.length + 2 ≤ e.1.length) && decide (e.1.take dir.length = dir) then
      let seg := e.1.getD dir.length ("")
      if (seg.data.headD (' ')).isDigit then some seg else none
    else none))

/-- The per-folder body of the processing loop of `process_data.main`, in stage
order; only the feature-extraction stage can raise out of it. -/
def runFolder (savgol : SavGol) (table : List ReactionParams) (dir : FPath)
    (fs : FS) (folder : String) : Except PyErr FS :=
  let fs1 := standardize_time_axis_fs fs dir folder table
  let fs2 := apply_smoothing_fs savgol fs1 dir folder smoothingWindowDefault smoothingPolyorderDefault
  let fs3 := merge_vis_nir_fs fs2 dir folder
  let fs4 := plot_fs fs3 dir folder
  extract_features_fs fs4 dir folder intensityThresholdDefault timeThresholdDefault

/-- Sequentially run a fallible step over a list of folders, stopping (the
pipeline aborting) at the first uncaught exception. -/
def runAll (step : FS → String → Except PyErr FS) : FS → List String → Except PyErr FS
  | fs, [] => .ok fs
  | fs, f :: rest =>
    match step fs f with
    | .ok fs2 => runAll step fs2 rest
    | .error e => .error e

/-- `list(data_directory.glob('reaction_parameters*.csv'))[0]`, with the
`IndexError` (no match) giving `none` — the only handled failure there. -/
def paramsFileOf (fs : FS) (dir : FPath) : Option FPath :=
  match fs.getByPfx dir ("reaction_parameters") with
  | .ok p => some p
  | .error _ => none

/-- `process_data.main` after argument parsing: find the reaction folders, load
the parameters table (stopping the whole pipeline cleanly when it is missing,
but with a read failure uncaught), then run the per-run stages and finally the
global compilation. -/
def main_fs (savgol : SavGol) (fs : FS) (dir : FPath) : Except PyErr FS :=
  let folders := fs.subdirs dir
  match paramsFileOf fs dir with
  | none => .ok fs
  | some pf =>
    match fs.readPTable pf with
    | .error e => .error e
    | .ok table =>
      match runAll (runFolder savgol table dir) fs folders with
      | .error e => .error e
      | .ok fs2 => compile_traces_fs savgol fs2 dir folders compileWindowDefault compilePolyorderDefault

/-- Is the parsed content a spectra frame? -/
def isFrameData : FileData → Bool
  | .frame _ => true
  | _ => false

/-- Is the parsed content a feature table? -/
def isFeaturesData : FileData → Bool
  | .features _ => true
  | _ => false

/-- A filesystem whose files at the two paths read OUTSIDE any `try/except`
(the smoothed NIR input of feature extraction, and the feature files the
aggregation reads) are well-formed; every other file may be arbitrary,
malformed ones included. -/
def GoodFS (fs : FS) : Prop :=
  ∀ e ∈ fs,
    (lastSeg e.1 = ("Emission_nir_smoothed.csv") → isFrameData e.2 = true) ∧
    (lastSeg e.1 = ("Emission_features_nir.csv") → isFeaturesData e.2 = true)

/-- An identity stand-in for the abstract Savitzky-Golay filter, used to
instantiate concrete inputs. -/
def savId : SavGol := fun _ _ xs => xs

/-- The NIR wavelengths of the spec's worked example. -/
def c3Wavelengths : List ℚ := [900, 910, 920, 930, 940]

/-- The intensities of the spec's worked example. -/
def c3Intensity : List ℚ := [10, 50, 100, 50, 10]

/-- A data directory holding a parameters table and one run folder whose
smoothed NIR file is unparseable: the input on which feature extraction's
uncaught read aborts the pipeline. -/
def cexFS : FS :=
  [([("d"), ("reaction_parameters.csv")], .ptable []),
   ([("d"), ("01_run"), ("smoothed_data"), ("Emission_nir_smoothed.csv")], .malformed)]

/-- A data directory holding a parameters table and one run folder whose RAW
corrected NIR file is unparseable: that data error is caught per band and the
pipeline completes. -/
def c2wFS : FS :=
  [([("d"), ("reaction_parameters.csv")], .ptable [{ reaction_id := 1, num_measurements := 4, frequency := 1 }]),
   ([("d"), ("01_run"), ("corrected_data"), ("Emission_nir_corrected.csv")], .malformed)]

/-- The timestamps this pipeline writes into every feature file form an
arithmetic progression (`np.arange` with the run's frequency as stride). -/
def isArithAxis (ts : List ℚ) : Prop :=
  ∃ a d : ℚ, d ≠ 0 ∧ ts = (List.range ts.length).map (fun (k : ℕ) => a + (k : ℚ) * d)

/-- A concrete feature record used to instantiate the aggregation statement. -/
def c9r0 : FeatureRecord :=
  { timestamp := 0, max_intensity := 10, peak_wavelength := some 900, fwhm_ev := some 1 }

/-- A second concrete feature record (gated out: absent wavelength/linewidth). -/
def c9r1 : FeatureRecord :=
  { timestamp := 2, max_intensity := 20, peak_wavelength := none, fwhm_ev := none }

/-- One concrete run's feature table on the arithmetic timestamp axis [0, 2]. -/
def c9Tables : List (String × List FeatureRecord) := [(("01_run"), [c9r0, c9r1])]

/-! ## Claim theorems -/

/-- C1 (counterexample): a run whose reaction id 1 is in the parameters table,
with `num_measurements = 4` and `frequency = 2`, gets the theoretical time axis
`[0, 2]` — whose element count is 2, not `num_measurements = 4` as claimed. -/
theorem C1_counterexample :
    timeAxisFor [{ reaction_id := 1, num_measurements := 4, frequency := 2 }] ("01_run")
        = some [0, 2] ∧
    ([0, 2] : List ℕ).length ≠ 4 := by
  constructor
  · decide
  · decide

/-- C1 (amended): for every run whose reaction id is found in the parameters
table (and positive frequency, as the interface requires), the theoretical time
axis is `np.arange(0, num_measurements, frequency)`: its `k`-th element is
`k * frequency`, it is strictly increasing, and it has
`⌈num_measurements / frequency⌉` elements — `num_measurements` of them only
when `frequency = 1`. -/
theorem C1_time_axis (table : List ReactionParams) (folder : String) (p : ReactionParams)
    (hp : lookupRun table folder = some p) (hf : 1 ≤ p.frequency) :
    timeAxisFor table folder = some (arangeNat p.num_measurements p.frequency) ∧
    (arangeNat p.num_measurements p.frequency).length
      = (p.num_measurements + p.frequency - 1) / p.frequency ∧
    (∀ k (hk : k < (arangeNat p.num_measurements p.frequency).length),
      (arangeNat p.num_measurements p.frequency).get ⟨k, hk⟩ = k * p.frequency) ∧
    (arangeNat p.num_measurements p.frequency).Pairwise (· < ·) := by
  refine ⟨by simp [timeAxisFor, hp], by simp [arangeNat], ?_, ?_⟩
  · intro k hk
    simp [arangeNat]
  · unfold arangeNat
    refine List.Pairwise.map _ (fun a b hab => ?_) (List.pairwise_lt_range _)
    exact mul_lt_mul_of_pos_right hab (by omega)

/-- C1 (witness): the amended statement evaluated for a table holding reaction
id 1 with 10 measurements at frequency 2. -/
theorem C1_witness :
    timeAxisFor [{ reaction_id := 1, num_measurements := 10, frequency := 2 }] ("01_run")
      = some (arangeNat 10 2) ∧
    (arangeNat 10 2).length = (10 + 2 - 1) / 2 ∧
    (∀ k (hk : k < (arangeNat 10 2).length), (arangeNat 10 2).get ⟨k, hk⟩ = k * 2) ∧
    (arangeNat 10 2).Pairwise (· < ·) :=
  C1_time_axis [{ reaction_id := 1, num_measurements := 10, frequency := 2 }] ("01_run")
    { reaction_id := 1, num_measurements := 10, frequency := 2 } (by decide) (by decide)

/-- C5: for every raw frame with `C` intensity columns and theoretical time axis
of length `T`, the cleaned frame has exactly `min(C, T)` columns, and its
column labels are the first `min(C, T)` theoretical time values in order. -/
theorem C5_truncation (df : SpectralFrame) (tp : List ℕ) :
    (standardize_frame df tp).cols
        = (tp.take (min df.cols.length tp.length)).map (fun (n : ℕ) => (n : ℚ)) ∧
    (standardize_frame df tp).cols.length = min df.cols.length tp.length := by
  unfold standardize_frame
  by_cases h : df.cols.length = tp.length
  · have hm : min df.cols.length tp.length = tp.length := by omega
    rw [if_pos h]
    constructor
    · rw [hm, List.take_length]
    · rw [List.length_map, hm]
  · rw [if_neg h]
    refine ⟨rfl, ?_⟩
    rw [List.length_map, List.length_take]
    omega

/-- C10: `_get_file_by_prefix` raises `FileNotFoundError` exactly when no CSV
file of the directory matches the prefix; when one or more files match, it
silently returns the first match in glob order with no uniqueness check, so
duplicate raw files are never reported as an error. -/
theorem C10_first_match (files : List String) (pfx : String) :
    (getFileByPfx files pfx = .error () ↔ ∀ f ∈ files, globMatch pfx f = false) ∧
    (∀ f l, files.filter (globMatch pfx) = f :: l → getFileByPfx files pfx = .ok f) := by
  constructor
  · unfold getFileByPfx
    cases h : files.filter (globMatch pfx) with
    | nil =>
      simp only [List.filter_eq_nil_iff] at h
      simpa using fun f hf => by simpa using h f hf
    | cons a as =>
      have ha : globMatch pfx a = true := (List.mem_filter.mp (h ▸ List.mem_cons_self a as)).2
      have haf : a ∈ files := (List.mem_filter.mp (h ▸ List.mem_cons_self a as)).1
      simp only [h]
      constructor
      · intro hcon
        exact absurd hcon (by simp)
      · intro hall
        exact absurd ha (by simp [hall a haf])
  · intro f l h
    unfold getFileByPfx
    rw [h]

/-- C10 (witness): two files match the prefix `Emission_nir_corrected`; the
first in glob order is returned and no error is raised. -/
theorem C10_witness :
    getFileByPfx [("Emission_nir_corrected_a.csv"), ("Emission_nir_corrected_b.csv")]
        ("Emission_nir_corrected") = .ok ("Emission_nir_corrected_a.csv") :=
  (C10_first_match [("Emission_nir_corrected_a.csv"), ("Emission_nir_corrected_b.csv")]
      ("Emission_nir_corrected")).2
    ("Emission_nir_corrected_a.csv") [("Emission_nir_corrected_b.csv")] (by decide)

/-- C8: for every timestamp column whose raw wavelength-space peak intensity is
strictly below the default intensity threshold 50 while the timestamp strictly
exceeds the default time threshold 100, the emitted record keeps the raw peak
intensity but has absent peak wavelength and absent linewidth — the
energy-space analysis contributes nothing to it. -/
theorem C8_noise_gate (wavelengths : List ℚ) (t : ℚ) (intensity : List ℚ)
    (_hne : intensity ≠ [])
    (hpk : intensity.getD (argmaxList intensity) 0 < intensityThresholdDefault)
    (ht : timeThresholdDefault < t) :
    extractColumn wavelengths t intensity intensityThresholdDefault timeThresholdDefault
      = { timestamp := t, max_intensity := intensity.getD (argmaxList intensity) 0,
          peak_wavelength := none, fwhm_ev := none } := by
  unfold extractColumn
  rw [if_pos ⟨hpk, ht⟩]

/-- C8 (witness): the gate applied to a column with peak 10 at timestamp 101. -/
theorem C8_witness :
    extractColumn [(900 : ℚ)] 101 [10] intensityThresholdDefault timeThresholdDefault
      = { timestamp := 101, max_intensity := 10, peak_wavelength := none, fwhm_ev := none } :=
  C8_noise_gate [(900 : ℚ)] 101 [10] (by decide) (by decide) (by decide)

/-- C3 (counterexample): on the spec's worked example the energy-space peak
index is NOT shifted toward shorter wavelength (a smaller index): it equals the
wavelength-space peak index 2. The Jacobian factor `λ²/(hc)` grows toward
longer wavelengths, and here it moves no peak at all. -/
theorem C3_counterexample :
    ¬ (energyPeakIdx c3Wavelengths c3Intensity < argmaxList c3Intensity) := by
  have h1 : energyPeakIdx c3Wavelengths c3Intensity = 2 := by
    norm_num [energyPeakIdx, intensityEv, energiesOf, HC, c3Wavelengths, c3Intensity,
      argmaxList, argmaxAux]
  have h2 : argmaxList c3Intensity = 2 := by
    norm_num [c3Intensity, argmaxList, argmaxAux]
  omega

/-- C3 (amended): on NIR wavelengths [900,910,920,930,940] with single
timestamp 5 and intensities [10,50,100,50,10], the extractor finds the
wavelength-space peak at 920 nm with intensity 100, and the energy-space peak
index recomputed after the Jacobian transformation equals the wavelength-space
peak index 2 (no shift). -/
theorem C3_worked_example :
    argmaxList c3Intensity = 2 ∧
    energyPeakIdx c3Wavelengths c3Intensity = 2 ∧
    (extractColumn c3Wavelengths 5 c3Intensity intensityThresholdDefault
        timeThresholdDefault).max_intensity = 100 ∧
    (extractColumn c3Wavelengths 5 c3Intensity intensityThresholdDefault
        timeThresholdDefault).peak_wavelength = some 920 := by
  have h2 : argmaxList c3Intensity = 2 := by
    norm_num [c3Intensity, argmaxList, argmaxAux]
  have h1 : energyPeakIdx c3Wavelengths c3Intensity = 2 := by
    norm_num [energyPeakIdx, intensityEv, energiesOf, HC, c3Wavelengths, c3Intensity,
      argmaxList, argmaxAux]
  refine ⟨h2, h1, ?_, ?_⟩
  · simp only [extractColumn, h2]
    norm_num [c3Intensity, intensityThresholdDefault, timeThresholdDefault]
  · simp only [extractColumn, h2]
    norm_num [c3Intensity, c3Wavelengths, intensityThresholdDefault, timeThresholdDefault]

/-- C4 (counterexample): a cleaned frame whose wavelength labels are not at
1-decimal precision (900.04 nm) smoothed with a valid odd window 3 ≤ 3 rows:
the output row labels are NOT identical to the input's (900.04 became 900.0),
because `apply_smoothing` rounds the index to one decimal before persisting. -/
theorem C4_counterexample :
    Odd 3 ∧ 3 ≤ ([(900.04 : ℚ), 910, 920] : List ℚ).length ∧
    (smooth_frame savId 3 2
        { index := [(900.04 : ℚ), 910, 920], cols := [0], data := [[1], [2], [3]] }).index
      ≠ [(900.04 : ℚ), 910, 920] := by
  have hf : (⌊(10 * (900.04 : ℚ))⌋ : ℤ) = 9000 := Int.floor_eq_iff.mpr (by norm_num)
  have hr : round1 (900.04 : ℚ) = 900 := by
    simp only [round1, roundHE, hf]
    norm_num
  refine ⟨by decide, by decide, fun h => ?_⟩
  have hh := congrArg (fun l : List ℚ => l.headD 0) h
  simp only [smooth_frame, List.map_cons, List.headD_cons] at hh
  rw [hr] at hh
  norm_num at hh

/-- C4 (amended): for every cleaned frame and valid odd window not exceeding
the row count, the smoothed frame's column labels are identical to the input's
and its row labels are the input's rounded to one decimal (identical exactly
when the input labels already carry at most one decimal); the data keeps one
row per row label and one cell per column label, only values change. -/
theorem C4_labels (savgol : SavGol) (w p : ℕ) (df : SpectralFrame)
    (_hodd : Odd w) (_hle : w ≤ df.index.length) :
    (smooth_frame savgol w p df).index = df.index.map round1 ∧
    (smooth_frame savgol w p df).cols = df.cols ∧
    (smooth_frame savgol w p df).data.length = df.index.length ∧
    (∀ row ∈ (smooth_frame savgol w p df).data, row.length = df.cols.length) := by
  refine ⟨rfl, rfl, by simp [smooth_frame], ?_⟩
  intro row hrow
  unfold smooth_frame at hrow
  simp only [List.mem_map, List.mem_range] at hrow
  obtain ⟨i, _, hi⟩ := hrow
  rw [← hi]
  simp

/-- C4 (witness): the amended statement on a 3-row frame with window 3. -/
theorem C4_witness :
    (smooth_frame savId 3 2
        { index := [(900.04 : ℚ), 910, 920], cols := [0], data := [[1], [2], [3]] }).index
      = [(900.04 : ℚ), 910, 920].map round1 ∧
    (smooth_frame savId 3 2
        { index := [(900.04 : ℚ), 910, 920], cols := [0], data := [[1], [2], [3]] }).cols
      = [(0 : ℚ)] ∧
    (smooth_frame savId 3 2
        { index := [(900.04 : ℚ), 910, 920], cols := [0], data := [[1], [2], [3]] }).data.length
      = 3 ∧
    (∀ row ∈ (smooth_frame savId 3 2
        { index := [(900.04 : ℚ), 910, 920], cols := [0], data := [[1], [2], [3]] }).data,
      row.length = 1) :=
  C4_labels savId 3 2
    { index := [(900.04 : ℚ), 910, 920], cols := [0], data := [[1], [2], [3]] }
    (by decide) (by decide)

/-- Entry `j` of a tabulated list: the function's value below the range bound,
else the default. -/
theorem getD_range_map (g : ℕ → ℚ) (n j : ℕ) (d : ℚ) :
    ((List.range n).map g).getD j d = if j < n then g j else d := by
  by_cases h : j < n
  · rw [List.getD_eq_getElem _ _ (by simpa using h)]
    simp [h]
  · rw [List.getD_eq_default _ _ (by simpa using Nat.le_of_not_lt h)]
    simp [h]

/-- C6: for every shared timestamp column whose mean visible intensity over the
default overlap window does not exceed the default minimum-signal threshold 50
(the NaN mean of an empty window included), the scaling factor is exactly 1 and
the visible-band values of that column are unchanged by the scaling; moreover
an undefined (NaN) `nir_mean / vis_mean` quotient always falls back to 1. -/
theorem C6_identity_scaling (nir vis : SpectralFrame) (j : ℕ)
    (hm : ∀ v ∈ visMeanAt nir vis stitchWavelengthDefault stitchWindowDefault j,
      v ≤ minSignalDefault) :
    scalingFactorAt nir vis stitchWavelengthDefault stitchWindowDefault minSignalDefault j = 1 ∧
    colAt (scaledVis nir vis stitchWavelengthDefault stitchWindowDefault minSignalDefault) j
      = colAt (alignedVis nir vis) j ∧
    (∀ j2, nirMeanAt nir vis stitchWavelengthDefault stitchWindowDefault j2 = none →
      scalingFactorAt nir vis stitchWavelengthDefault stitchWindowDefault minSignalDefault j2
        = 1) := by
  have hfac :
      scalingFactorAt nir vis stitchWavelengthDefault stitchWindowDefault minSignalDefault j
        = 1 := by
    unfold scalingFactorAt
    cases hv : visMeanAt nir vis stitchWavelengthDefault stitchWindowDefault j with
    | none => rfl
    | some v =>
      have hle : v ≤ minSignalDefault := hm v (by rw [hv]; rfl)
      dsimp only
      rw [if_neg (not_lt.mpr hle)]
  refine ⟨hfac, ?_, ?_⟩
  · unfold colAt scaledVis
    simp only [List.map_map]
    refine List.map_congr_left (fun row _ => ?_)
    simp only [Function.comp_apply, getD_range_map]
    by_cases h : j < row.length
    · rw [if_pos h, hfac, mul_one]
    · rw [if_neg h, List.getD_eq_default _ _ (Nat.le_of_not_lt h)]
  · intro j2 hnir
    unfold scalingFactorAt
    cases hv : visMeanAt nir vis stitchWavelengthDefault stitchWindowDefault j2 with
    | none => rfl
    | some v =>
      rw [hnir]
      dsimp only
      by_cases h : minSignalDefault < v
      · rw [if_pos h]
      · rw [if_neg h]

/-- C6 (witness): a single shared column whose visible overlap mean 40 is below
threshold keeps its values (scale factor 1), and the NaN-quotient fallback
holds. -/
theorem C6_witness :
    scalingFactorAt { index := [925], cols := [0], data := [[60]] }
        { index := [925], cols := [0], data := [[40]] }
        stitchWavelengthDefault stitchWindowDefault minSignalDefault 0 = 1 ∧
    colAt (scaledVis { index := [925], cols := [0], data := [[60]] }
        { index := [925], cols := [0], data := [[40]] }
        stitchWavelengthDefault stitchWindowDefault minSignalDefault) 0
      = colAt (alignedVis { index := [925], cols := [0], data := [[60]] }
        { index := [925], cols := [0], data := [[40]] }) 0 ∧
    (∀ j2, nirMeanAt { index := [925], cols := [0], data := [[60]] }
        { index := [925], cols := [0], data := [[40]] }
        stitchWavelengthDefault stitchWindowDefault j2 = none →
      scalingFactorAt { index := [925], cols := [0], data := [[60]] }
        { index := [925], cols := [0], data := [[40]] }
        stitchWavelengthDefault stitchWindowDefault minSignalDefault j2 = 1) :=
  C6_identity_scaling { index := [925], cols := [0], data := [[60]] }
    { index := [925], cols := [0], data := [[40]] } 0
    (by
      intro v hv
      have hev : visMeanAt { index := [925], cols := [(0 : ℚ)], data := [[60]] }
          { index := [925], cols := [0], data := [[40]] }
          stitchWavelengthDefault stitchWindowDefault 0 = some 40 := by
        norm_num [visMeanAt, meanOpt, colAt, overlapRegion, alignedVis,
          SpectralFrame.selectCols, SpectralFrame.rowFilter, SpectralFrame.toRows,
          frameOfRows, commonCols, stitchWavelengthDefault, stitchWindowDefault,
          List.filter, List.findIdx, List.findIdx.go]
      rw [hev] at hv
      have hv40 : (40 : ℚ) = v := by simpa using hv
      rw [← hv40]
      norm_num [minSignalDefault])

/-- Sorting an already label-sorted row list changes nothing. -/
theorem sortRows_sorted_eq (rs : List (ℚ × List ℚ))
    (h : rs.Pairwise (fun a b => a.1 ≤ b.1)) : sortRows rs = rs := by
  induction rs with
  | nil => rfl
  | cons x xs ih =>
    rw [sortRows, ih (List.Pairwise.of_cons h)]
    cases xs with
    | nil => rfl
    | cons y ys =>
      have hxy : x.1 ≤ y.1 := (List.pairwise_cons.mp h).1 y (List.mem_cons_self y ys)
      simp only [insertRow, if_pos hxy]

/-- Rebuilding a frame from rows gives those rows back. -/
theorem toRows_frameOfRows (cols : List ℚ) (rs : List (ℚ × List ℚ)) :
    (frameOfRows cols rs).toRows = rs := by
  induction rs with
  | nil => rfl
  | cons a l ih =>
    simp only [frameOfRows, SpectralFrame.toRows, List.map_cons, List.zip_cons_cons] at *
    rw [ih]

/-- Strictly increasing labels give pairwise-increasing labelled rows. -/
theorem pairwise_fst_zip {R : ℚ → ℚ → Prop} :
    ∀ (l : List ℚ) (l2 : List (List ℚ)),
      l.Pairwise R → (l.zip l2).Pairwise (fun a b => R a.1 b.1)
  | [], _, _ => by simp
  | a :: l, [], _ => by simp
  | a :: l, b :: l2, h => by
    simp only [List.zip_cons_cons, List.pairwise_cons]
    refine ⟨fun p hp => (List.pairwise_cons.mp h).1 p.1 (List.of_mem_zip hp).1, ?_⟩
    exact pairwise_fst_zip l l2 (List.pairwise_cons.mp h).2

/-- C7: for smoothed band frames with strictly increasing wavelength labels,
the merged frame's wavelength index is strictly increasing (ascending with no
duplicates); each merged row below the default stitch centre 930 nm is a row of
the scaled visible frame and each row at or above it is a row of the aligned
NIR frame, and conversely every such row of those frames appears in the merge. -/
theorem C7_stitch_boundary (nir vis : SpectralFrame)
    (hn : nir.index.Pairwise (· < ·)) (hv : vis.index.Pairwise (· < ·)) :
    (mergeFrames nir vis stitchWavelengthDefault stitchWindowDefault
        minSignalDefault).index.Pairwise (· < ·) ∧
    (∀ r ∈ (mergeFrames nir vis stitchWavelengthDefault stitchWindowDefault
        minSignalDefault).toRows,
      (r.1 < stitchWavelengthDefault →
        r ∈ (scaledVis nir vis stitchWavelengthDefault stitchWindowDefault
          minSignalDefault).toRows) ∧
      (stitchWavelengthDefault ≤ r.1 → r ∈ (alignedNir nir vis).toRows)) ∧
    (∀ r ∈ (scaledVis nir vis stitchWavelengthDefault stitchWindowDefault
        minSignalDefault).toRows,
      r.1 < stitchWavelengthDefault →
      r ∈ (mergeFrames nir vis stitchWavelengthDefault stitchWindowDefault
        minSignalDefault).toRows) ∧
    (∀ r ∈ (alignedNir nir vis).toRows,
      stitchWavelengthDefault ≤ r.1 →
      r ∈ (mergeFrames nir vis stitchWavelengthDefault stitchWindowDefault
        minSignalDefault).toRows) := by
  have hsvi : (scaledVis nir vis stitchWavelengthDefault stitchWindowDefault
      minSignalDefault).index = vis.index := rfl
  have hnai : (alignedNir nir vis).index = nir.index := rfl
  -- pairwise strictly increasing labelled rows of the two inputs
  have hsv : (scaledVis nir vis stitchWavelengthDefault stitchWindowDefault
      minSignalDefault).toRows.Pairwise (fun a b => a.1 < b.1) :=
    pairwise_fst_zip _ _ (hsvi ▸ hv)
  have hna : (alignedNir nir vis).toRows.Pairwise (fun a b => a.1 < b.1) :=
    pairwise_fst_zip _ _ (hnai ▸ hn)
  -- the two stitched parts
  have hpv : ((scaledVis nir vis stitchWavelengthDefault stitchWindowDefault
      minSignalDefault).toRows.filter
        (fun r => decide (r.1 < stitchWavelengthDefault))).Pairwise
      (fun a b => a.1 < b.1) := List.Pairwise.filter _ hsv
  have hpn : ((alignedNir nir vis).toRows.filter
        (fun r => decide (stitchWavelengthDefault ≤ r.1))).Pairwise
      (fun a b => a.1 < b.1) := List.Pairwise.filter _ hna
  have hbound : ∀ a ∈ (scaledVis nir vis stitchWavelengthDefault stitchWindowDefault
      minSignalDefault).toRows.filter (fun r => decide (r.1 < stitchWavelengthDefault)),
      ∀ b ∈ (alignedNir nir vis).toRows.filter
        (fun r => decide (stitchWavelengthDefault ≤ r.1)), a.1 < b.1 := by
    intro a ha b hb
    have ha2 : a.1 < stitchWavelengthDefault :=
      of_decide_eq_true (List.mem_filter.mp ha).2
    have hb2 : stitchWavelengthDefault ≤ b.1 :=
      of_decide_eq_true (List.mem_filter.mp hb).2
    exact lt_of_lt_of_le ha2 hb2
  have happ : (((scaledVis nir vis stitchWavelengthDefault stitchWindowDefault
      minSignalDefault).toRows.filter (fun r => decide (r.1 < stitchWavelengthDefault)))
      ++ ((alignedNir nir vis).toRows.filter
        (fun r => decide (stitchWavelengthDefault ≤ r.1)))).Pairwise
      (fun a b => a.1 < b.1) :=
    List.pairwise_append.mpr ⟨hpv, hpn, hbound⟩
  have hsort : sortRows (((scaledVis nir vis stitchWavelengthDefault stitchWindowDefault
      minSignalDefault).toRows.filter (fun r => decide (r.1 < stitchWavelengthDefault)))
      ++ ((alignedNir nir vis).toRows.filter
        (fun r => decide (stitchWavelengthDefault ≤ r.1))))
      = ((scaledVis nir vis stitchWavelengthDefault stitchWindowDefault
      minSignalDefault).toRows.filter (fun r => decide (r.1 < stitchWavelengthDefault)))
      ++ ((alignedNir nir vis).toRows.filter
        (fun r => decide (stitchWavelengthDefault ≤ r.1))) :=
    sortRows_sorted_eq _ (happ.imp (fun h => le_of_lt h))
  have hrows : (mergeFrames nir vis stitchWavelengthDefault stitchWindowDefault
      minSignalDefault).toRows
      = ((scaledVis nir vis stitchWavelengthDefault stitchWindowDefault
      minSignalDefault).toRows.filter (fun r => decide (r.1 < stitchWavelengthDefault)))
      ++ ((alignedNir nir vis).toRows.filter
        (fun r => decide (stitchWavelengthDefault ≤ r.1))) := by
    unfold mergeFrames
    dsimp only
    rw [hsort, toRows_frameOfRows]
  refine ⟨?_, ?_, ?_, ?_⟩
  · have hidx : (mergeFrames nir vis stitchWavelengthDefault stitchWindowDefault
        minSignalDefault).index
        = (sortRows (((scaledVis nir vis stitchWavelengthDefault stitchWindowDefault
            minSignalDefault).toRows.filter
              (fun r => decide (r.1 < stitchWavelengthDefault)))
          ++ ((alignedNir nir vis).toRows.filter
              (fun r => decide (stitchWavelengthDefault ≤ r.1))))).map Prod.fst := rfl
    rw [hidx, hsort]
    exact happ.map Prod.fst (fun _ _ h => h)
  · intro r hr
    rw [hrows] at hr
    rcases List.mem_append.mp hr with h | h
    · have h1 := List.mem_filter.mp h
      have h2 : r.1 < stitchWavelengthDefault := of_decide_eq_true h1.2
      exact ⟨fun _ => h1.1, fun hge => absurd h2 (not_lt.mpr hge)⟩
    · have h1 := List.mem_filter.mp h
      have h2 : stitchWavelengthDefault ≤ r.1 := of_decide_eq_true h1.2
      exact ⟨fun hlt => absurd hlt (not_lt.mpr h2), fun _ => h1.1⟩
  · intro r hr hlt
    rw [hrows]
    exact List.mem_append.mpr (Or.inl (List.mem_filter.mpr ⟨hr, decide_eq_true hlt⟩))
  · intro r hr hge
    rw [hrows]
    exact List.mem_append.mpr (Or.inr (List.mem_filter.mpr ⟨hr, decide_eq_true hge⟩))

/-- C7 (witness): the stitch-boundary statement on two concrete two-row bands
straddling 930 nm. -/
theorem C7_witness :
    (mergeFrames { index := [925, 935], cols := [0], data := [[30], [40]] }
        { index := [920, 925], cols := [0], data := [[10], [20]] }
        stitchWavelengthDefault stitchWindowDefault
        minSignalDefault).index.Pairwise (· < ·) ∧
    (∀ r ∈ (mergeFrames { index := [925, 935], cols := [0], data := [[30], [40]] }
        { index := [920, 925], cols := [0], data := [[10], [20]] }
        stitchWavelengthDefault stitchWindowDefault minSignalDefault).toRows,
      (r.1 < stitchWavelengthDefault →
        r ∈ (scaledVis { index := [925, 935], cols := [0], data := [[30], [40]] }
          { index := [920, 925], cols := [0], data := [[10], [20]] }
          stitchWavelengthDefault stitchWindowDefault minSignalDefault).toRows) ∧
      (stitchWavelengthDefault ≤ r.1 →
        r ∈ (alignedNir { index := [925, 935], cols := [0], data := [[30], [40]] }
          { index := [920, 925], cols := [0], data := [[10], [20]] }).toRows)) ∧
    (∀ r ∈ (scaledVis { index := [925, 935], cols := [0], data := [[30], [40]] }
        { index := [920, 925], cols := [0], data := [[10], [20]] }
        stitchWavelengthDefault stitchWindowDefault minSignalDefault).toRows,
      r.1 < stitchWavelengthDefault →
      r ∈ (mergeFrames { index := [925, 935], cols := [0], data := [[30], [40]] }
        { index := [920, 925], cols := [0], data := [[10], [20]] }
        stitchWavelengthDefault stitchWindowDefault minSignalDefault).toRows) ∧
    (∀ r ∈ (alignedNir { index := [925, 935], cols := [0], data := [[30], [40]] }
        { index := [920, 925], cols := [0], data := [[10], [20]] }).toRows,
      stitchWavelengthDefault ≤ r.1 →
      r ∈ (mergeFrames { index := [925, 935], cols := [0], data := [[30], [40]] }
        { index := [920, 925], cols := [0], data := [[10], [20]] }
        stitchWavelengthDefault stitchWindowDefault minSignalDefault).toRows) :=
  C7_stitch_boundary { index := [925, 935], cols := [0], data := [[30], [40]] }
    { index := [920, 925], cols := [0], data := [[10], [20]] }
    (by decide) (by decide)

/-- The index of the last valid entry is in bounds. -/
theorem lastSome_lt (xs : List (Option ℚ)) (i : ℕ) (v : ℚ)
    (h : lastSome xs = some (i, v)) : i < xs.length := by
  induction xs generalizing i v with
  | nil => simp [lastSome] at h
  | cons x rest ih =>
    rw [lastSome] at h
    cases hr : lastSome rest with
    | some p =>
      rw [hr] at h
      have := ih p.1 p.2 (by rw [hr])
      injection h with h1
      have h2 : p.1 + 1 = i := congrArg Prod.fst h1
      simpa [← h2] using Nat.succ_lt_succ this
    | none =>
      rw [hr] at h
      cases x with
      | none => simp at h
      | some v0 =>
        simp only [Option.map_some] at h
        injection h with h1
        have h2 : (0 : ℕ) = i := congrArg Prod.fst h1
        simp [← h2]

/-- The index of the first valid entry is in bounds. -/
theorem firstSome_lt (xs : List (Option ℚ)) (k : ℕ) (v : ℚ)
    (h : firstSome xs = some (k, v)) : k < xs.length := by
  induction xs generalizing k v with
  | nil => simp [firstSome] at h
  | cons x rest ih =>
    cases x with
    | some v0 =>
      rw [firstSome] at h
      injection h with h1
      have h2 : (0 : ℕ) = k := congrArg Prod.fst h1
      simp [← h2]
    | none =>
      rw [firstSome] at h
      cases hr : firstSome rest with
      | none => rw [hr] at h; simp at h
      | some p =>
        rw [hr] at h
        have h1 : ((p.1 + 1, p.2) : ℕ × ℚ) = (k, v) := by simpa using h
        have h2 : p.1 + 1 = k := congrArg Prod.fst h1
        have := ih p.1 p.2 hr
        simpa [← h2] using Nat.succ_lt_succ this

/-- On an arithmetic timestamp axis (the only kind this pipeline produces),
pandas' positional linear interpolation IS linear interpolation over the
timestamp axis: the two fills agree pointwise. -/
theorem interpolate_pos_eq_timestamp (ts : List ℚ) (xs : List (Option ℚ)) (a d : ℚ)
    (hd : d ≠ 0) (hlen : ts.length = xs.length)
    (hts : ts = (List.range ts.length).map (fun (k : ℕ) => a + (k : ℚ) * d)) :
    interpolateLinear xs = interpolateByTimestamp ts xs := by
  have tsget : ∀ m, m < xs.length → ts.getD m 0 = a + (m : ℚ) * d := by
    intro m hm
    conv_lhs => rw [hts]
    rw [getD_range_map, if_pos (by omega : m < ts.length)]
  unfold interpolateLinear interpolateByTimestamp
  refine List.map_congr_left (fun j hj => ?_)
  have hjlen : j < xs.length := List.mem_range.mp hj
  unfold interpPos interpTsPos
  cases hx : xs.getD j none with
  | some v => rfl
  | none =>
    cases hl : lastSome (xs.take j) with
    | none => rfl
    | some iv =>
      cases hf : firstSome (xs.drop (j+1)) with
      | none => rfl
      | some kv =>
        dsimp only
        have hi : iv.1 < j := by
          have h1 := lastSome_lt _ _ _ (by rw [hl] : lastSome (xs.take j) = some (iv.1, iv.2))
          rw [List.length_take] at h1
          omega
        have hk : j + 1 + kv.1 < xs.length := by
          have h1 := firstSome_lt _ _ _ (by rw [hf] : firstSome (xs.drop (j+1)) = some (kv.1, kv.2))
          rw [List.length_drop] at h1
          omega
        rw [tsget j hjlen, tsget iv.1 (by omega), tsget (j+1+kv.1) hk]
        congr 1
        push_cast
        have hnum : (a + (j : ℚ) * d) - (a + (iv.1 : ℚ) * d)
            = ((j : ℚ) - (iv.1 : ℚ)) * d := by ring
        have hden : (a + ((j : ℚ) + 1 + (kv.1 : ℚ)) * d) - (a + (iv.1 : ℚ) * d)
            = (((j : ℚ) + 1 + (kv.1 : ℚ)) - (iv.1 : ℚ)) * d := by ring
        rw [hnum, hden]
        rw [show ((j : ℚ) - (iv.1 : ℚ)) * d * (kv.2 - iv.2)
            = (((j : ℚ) - (iv.1 : ℚ)) * (kv.2 - iv.2)) * d from by ring]
        rw [mul_div_mul_right _ _ hd]

/-- Membership in an insertion is membership in head or tail. -/
theorem mem_insertQ (x a : ℚ) (ys : List ℚ) : a ∈ insertQ x ys ↔ a = x ∨ a ∈ ys := by
  induction ys with
  | nil => simp [insertQ]
  | cons y ys ih =>
    rw [insertQ]
    by_cases h : x ≤ y
    · simp [if_pos h]
    · rw [if_neg h]
      simp only [List.mem_cons, ih]
      tauto

/-- Sorting preserves membership. -/
theorem mem_sortQ (a : ℚ) (xs : List ℚ) : a ∈ sortQ xs ↔ a ∈ xs := by
  induction xs with
  | nil => simp [sortQ]
  | cons x xs ih => rw [sortQ, mem_insertQ, ih]; simp

/-- Membership in the first-occurrence deduplication. -/
theorem mem_dedupQAux (a : ℚ) : ∀ (seen xs : List ℚ),
    a ∈ dedupQAux seen xs ↔ a ∈ xs ∧ a ∉ seen := by
  intro seen xs
  induction xs generalizing seen with
  | nil => simp [dedupQAux]
  | cons x xs ih =>
    rw [dedupQAux]
    by_cases h : x ∈ seen
    · rw [if_pos h, ih]
      constructor
      · exact fun hp => ⟨List.mem_cons_of_mem x hp.1, hp.2⟩
      · rintro ⟨h1, h2⟩
        rcases List.mem_cons.mp h1 with he | hm
        · exact absurd (he ▸ h) h2
        · exact ⟨hm, h2⟩
    · rw [if_neg h]
      simp only [List.mem_cons, ih]
      by_cases he : a = x
      · simp [he, h]
      · simp only [he, false_or]

/-- Deduplication preserves membership. -/
theorem mem_dedupQ (a : ℚ) (xs : List ℚ) : a ∈ dedupQ xs ↔ a ∈ xs := by
  rw [dedupQ, mem_dedupQAux]
  simp

/-- The outer-join row index holds exactly the timestamps present in some run. -/
theorem mem_unionIndex (tss : List (List ℚ)) (t : ℚ) :
    t ∈ unionIndex tss ↔ ∃ l ∈ tss, t ∈ l := by
  cases tss with
  | nil => simp [unionIndex]
  | cons t0 rest =>
    rw [unionIndex]
    by_cases h : rest.all (fun l => decide (l = t0))
    · rw [if_pos h]
      constructor
      · exact fun ht => ⟨t0, List.mem_cons_self t0 rest, ht⟩
      · rintro ⟨l, hl, htl⟩
        rcases List.mem_cons.mp hl with he | hm
        · exact he ▸ htl
        · have : l = t0 := of_decide_eq_true (List.all_eq_true.mp h l hm)
          exact this ▸ htl
    · rw [if_neg h, mem_sortQ, mem_dedupQ, List.mem_flatten]

/-- `findIdx?` helper: the search from any start offset. -/
theorem findIdxQ_some_aux (t : ℚ) : ∀ (l : List ℚ) (s : ℕ), t ∈ l →
    ∃ pos, List.findIdx? (fun x => decide (x = t)) l s = some (s + pos) ∧ pos < l.length ∧
      l.getD pos 0 = t := by
  intro l
  induction l with
  | nil => intro s ht; cases ht
  | cons a l ih =>
    intro s ht
    by_cases h : a = t
    · exact ⟨0, by simp [List.findIdx?, h], by simp, by simp [h]⟩
    · have htl : t ∈ l := by
        rcases List.mem_cons.mp ht with he | hm
        · exact absurd he.symm h
        · exact hm
      obtain ⟨pos, h1, h2, h3⟩ := ih (s + 1) htl
      refine ⟨pos + 1, ?_, by simpa using Nat.succ_lt_succ h2, by simpa using h3⟩
      have hstep : List.findIdx? (fun x => decide (x = t)) (a :: l) s
          = List.findIdx? (fun x => decide (x = t)) l (s + 1) := by
        simp [List.findIdx?, h]
      rw [hstep, h1]
      congr 1
      omega

/-- `findIdx?` on a list containing `t` finds a position holding `t`. -/
theorem findIdxQ_some (l : List ℚ) (t : ℚ) (ht : t ∈ l) :
    ∃ pos, l.findIdx? (fun x => decide (x = t)) = some pos ∧ pos < l.length ∧
      l.getD pos 0 = t := by
  obtain ⟨pos, h1, h2, h3⟩ := findIdxQ_some_aux t l 0 ht
  exact ⟨pos, by simpa using h1, h2, h3⟩

/-- Cell lookup in a table whose rows are tabulated from its index: the lookup
gives the tabulation function at the looked-up label. -/
theorem cellAt_tabulated (T : SummaryTable) (idxL : List ℚ) (g : ℚ → List (Option ℚ))
    (hTi : T.index = idxL) (hTd : T.data = idxL.map g) (t : ℚ) (i : ℕ) (ht : t ∈ idxL) :
    cellAt T t i = (g t).getD i none := by
  obtain ⟨pos, h1, h2, h3⟩ := findIdxQ_some idxL t ht
  unfold cellAt
  rw [hTi, hTd, h1]
  dsimp only
  have hd : (idxL.map g).getD pos [] = g t := by
    rw [List.getD_eq_getElem _ _ (by simpa using h2), List.getElem_map]
    congr 1
    rw [← h3, List.getD_eq_getElem _ _ h2]
  rw [hd]

/-- C9: aggregation processes each contributing run's series by positional
linear interpolation (equal, on the arithmetic timestamp axes this pipeline
produces, to linear interpolation over the timestamp axis), then backward and
forward fill, then the Savitzky-Golay filter with the same defaults (window 11,
polyorder 2) as the smoother; the summary table has exactly one column per
contributing run named after its folder, its row index is the outer join of the
runs' timestamps, and the column of run `i` at that run's `k`-th timestamp
holds the `k`-th processed value. -/
theorem C9_aggregation (savgol : SavGol) (tables : List (String × List FeatureRecord))
    (ch : FeatureChannel)
    (hts : ∀ tab ∈ tables, (tab.2.map (fun r => r.timestamp)).Nodup ∧
      isArithAxis (tab.2.map (fun r => r.timestamp))) :
    (compileChannel savgol compileWindowDefault compilePolyorderDefault tables ch).cols
      = tables.map Prod.fst ∧
    compileWindowDefault = smoothingWindowDefault ∧ compileWindowDefault = 11 ∧
    compilePolyorderDefault = smoothingPolyorderDefault ∧ compilePolyorderDefault = 2 ∧
    (∀ tab ∈ tables,
      interpolateLinear (tab.2.map (channelValue ch))
        = interpolateByTimestamp (tab.2.map (fun r => r.timestamp))
            (tab.2.map (channelValue ch))) ∧
    (∀ t, t ∈ (compileChannel savgol compileWindowDefault compilePolyorderDefault
        tables ch).index ↔ ∃ tab ∈ tables, t ∈ tab.2.map (fun r => r.timestamp)) ∧
    (∀ i (hi : i < tables.length) (k : ℕ) (hk : k < (tables.get ⟨i, hi⟩).2.length),
      cellAt (compileChannel savgol compileWindowDefault compilePolyorderDefault tables ch)
          (((tables.get ⟨i, hi⟩).2.get ⟨k, hk⟩).timestamp) i
        = (processedSeries savgol compileWindowDefault compilePolyorderDefault
            (tables.get ⟨i, hi⟩).2 ch).getD k none) := by
  have hidx : (compileChannel savgol compileWindowDefault compilePolyorderDefault
      tables ch).index
      = unionIndex (tables.map (fun tab => tab.2.map (fun r => r.timestamp))) := by
    unfold compileChannel
    dsimp only
    rw [List.map_map]
    rfl
  refine ⟨?_, rfl, rfl, rfl, rfl, ?_, ?_, ?_⟩
  · unfold compileChannel
    dsimp only
    rw [List.map_map]
    rfl
  · intro tab htab
    obtain ⟨a, d, hd, hform⟩ := (hts tab htab).2
    exact interpolate_pos_eq_timestamp _ _ a d hd (by simp) hform
  · intro t
    rw [hidx, mem_unionIndex]
    constructor
    · rintro ⟨l, hl, htl⟩
      obtain ⟨tab, htab, rfl⟩ := List.mem_map.mp hl
      exact ⟨tab, htab, htl⟩
    · rintro ⟨tab, htab, htl⟩
      exact ⟨tab.2.map (fun r => r.timestamp), List.mem_map.mpr ⟨tab, htab, rfl⟩, htl⟩
  · intro i hi k hk
    simp only [List.get_eq_getElem] at hk ⊢
    have hkts : k < (tables[i].2.map (fun r => r.timestamp)).length := by
      simpa using hk
    have htk : (tables[i].2.map (fun r => r.timestamp))[k]
        = (tables[i].2[k]).timestamp := by
      simp
    have hmem : (tables[i].2[k]).timestamp
        ∈ unionIndex ((tables.map (fun tab =>
          (tab.1, tab.2.map (fun r => r.timestamp),
            processedSeries savgol compileWindowDefault compilePolyorderDefault tab.2
              ch))).map (fun r => r.2.1)) := by
      rw [mem_unionIndex]
      refine ⟨tables[i].2.map (fun r => r.timestamp), ?_, ?_⟩
      · exact List.mem_map.mpr ⟨(tables[i].1, tables[i].2.map (fun r => r.timestamp),
          processedSeries savgol compileWindowDefault compilePolyorderDefault tables[i].2 ch),
          List.mem_map.mpr ⟨tables[i], List.getElem_mem hi, rfl⟩, rfl⟩
      · rw [← htk]
        exact List.getElem_mem hkts
    have hcell := cellAt_tabulated
      (compileChannel savgol compileWindowDefault compilePolyorderDefault tables ch)
      (unionIndex ((tables.map (fun tab =>
        (tab.1, tab.2.map (fun r => r.timestamp),
          processedSeries savgol compileWindowDefault compilePolyorderDefault tab.2
            ch))).map (fun r => r.2.1)))
      (fun t => (tables.map (fun tab =>
        (tab.1, tab.2.map (fun r => r.timestamp),
          processedSeries savgol compileWindowDefault compilePolyorderDefault tab.2
            ch))).map (fun r => seriesAt r.2.1 r.2.2 t))
      (by rfl) (by rfl) ((tables[i].2[k]).timestamp) i hmem
    rw [hcell]
    dsimp only
    have hilen : i < ((tables.map (fun tab =>
        (tab.1, tab.2.map (fun r => r.timestamp),
          processedSeries savgol compileWindowDefault compilePolyorderDefault tab.2
            ch))).map (fun r => seriesAt r.2.1 r.2.2 ((tables[i].2[k]).timestamp))).length := by
      simpa using hi
    rw [List.getD_eq_getElem _ _ hilen, List.getElem_map, List.getElem_map]
    dsimp only
    -- first occurrence of this run's k-th timestamp in its own index is k (Nodup)
    have hnd : (tables[i].2.map (fun r => r.timestamp)).Nodup :=
      (hts tables[i] (List.getElem_mem hi)).1
    have hmem2 : (tables[i].2[k]).timestamp
        ∈ tables[i].2.map (fun r => r.timestamp) := by
      rw [← htk]
      exact List.getElem_mem hkts
    obtain ⟨pos, hf1, hf2, hf3⟩ :=
      findIdxQ_some (tables[i].2.map (fun r => r.timestamp))
        ((tables[i].2[k]).timestamp) hmem2
    have hpk : pos = k := by
      have hf4 : pos < (tables[i].2.map (fun r => r.timestamp)).length := by
        simpa using hf2
      have hgp : (tables[i].2.map (fun r => r.timestamp))[pos]
          = (tables[i].2.map (fun r => r.timestamp))[k] := by
        rw [← List.getD_eq_getElem _ (0 : ℚ) hf2, hf3, htk]
      exact (List.Nodup.getElem_inj_iff hnd).mp hgp
    subst hpk
    unfold seriesAt
    rw [hf1]

/-- C9 (witness): the aggregation statement evaluated for one run with two
feature records on the arithmetic timestamp axis `[0, 2]`. -/
theorem C9_witness :
    (compileChannel savId compileWindowDefault compilePolyorderDefault c9Tables
        FeatureChannel.maxIntensity).cols = c9Tables.map Prod.fst ∧
    compileWindowDefault = smoothingWindowDefault ∧ compileWindowDefault = 11 ∧
    compilePolyorderDefault = smoothingPolyorderDefault ∧ compilePolyorderDefault = 2 ∧
    (∀ tab ∈ c9Tables,
      interpolateLinear (tab.2.map (channelValue FeatureChannel.maxIntensity))
        = interpolateByTimestamp (tab.2.map (fun r => r.timestamp))
            (tab.2.map (channelValue FeatureChannel.maxIntensity))) ∧
    (∀ t, t ∈ (compileChannel savId compileWindowDefault compilePolyorderDefault c9Tables
        FeatureChannel.maxIntensity).index
      ↔ ∃ tab ∈ c9Tables, t ∈ tab.2.map (fun r => r.timestamp)) ∧
    (∀ i (hi : i < c9Tables.length) (k : ℕ) (hk : k < (c9Tables.get ⟨i, hi⟩).2.length),
      cellAt (compileChannel savId compileWindowDefault compilePolyorderDefault c9Tables
          FeatureChannel.maxIntensity)
          (((c9Tables.get ⟨i, hi⟩).2.get ⟨k, hk⟩).timestamp) i
        = (processedSeries savId compileWindowDefault compilePolyorderDefault
            (c9Tables.get ⟨i, hi⟩).2 FeatureChannel.maxIntensity).getD k none) :=
  C9_aggregation savId c9Tables FeatureChannel.maxIntensity
    (by
      intro tab htab
      have htab2 : tab = (("01_run"), [c9r0, c9r1]) := by simpa [c9Tables] using htab
      subst htab2
      refine ⟨by decide, 0, 2, by norm_num, ?_⟩
      norm_num [c9r0, c9r1, isArithAxis, List.range_succ])

/-- C2 (counterexample): a data set with a parameters table and one run whose
smoothed NIR file is a malformed CSV. The merge stage reads that file and its
`try/except` catches the parse failure, but feature extraction then reads the
same file with NO exception handler anywhere up the stack, so the whole
pipeline aborts — a data error that is not caught at the per-run unit of work. -/
theorem C2_counterexample :
    main_fs savId cexFS [("d")] = .error .parseError := by
  rfl

/-- The file name of a path built by appending one segment. -/
theorem lastSeg_append1 (d : FPath) (n : String) : lastSeg (d ++ [n]) = n := by
  unfold lastSeg
  rw [List.getLast?_append]
  rfl

/-- The file name of a path built by appending two segments. -/
theorem lastSeg_append2 (d : FPath) (a n : String) : lastSeg (d ++ [a, n]) = n := by
  unfold lastSeg
  rw [List.getLast?_append]
  rfl

/-- The file name of a path built by appending three segments. -/
theorem lastSeg_append3 (d : FPath) (a b n : String) : lastSeg (d ++ [a, b, n]) = n := by
  unfold lastSeg
  rw [List.getLast?_append]
  rfl

/-- A looked-up file is one of the filesystem's entries. -/
theorem fileAt_mem (fs : FS) (p : FPath) (d : FileData) (h : fs.fileAt p = some d) :
    ∃ e ∈ fs, e.1 = p ∧ e.2 = d := by
  unfold FS.fileAt at h
  cases hf : fs.find? (fun e => decide (e.1 = p)) with
  | none => rw [hf] at h; cases h
  | some e =>
    rw [hf] at h
    have hpe := List.find?_some hf
    refine ⟨e, List.mem_of_find?_eq_some hf, of_decide_eq_true hpe, ?_⟩
    simpa using h

/-- Writing preserves well-formedness of the uncaught-read files, as long as
the written file itself respects it. -/
theorem GoodFS_write (fs : FS) (p : FPath) (d : FileData) (hg : GoodFS fs)
    (h1 : lastSeg p = ("Emission_nir_smoothed.csv") → isFrameData d = true)
    (h2 : lastSeg p = ("Emission_features_nir.csv") → isFeaturesData d = true) :
    GoodFS (fs.write p d) := by
  intro e he
  rcases List.mem_cons.mp he with rfl | hm
  · exact ⟨h1, h2⟩
  · exact hg e (List.mem_of_mem_filter hm)

/-- On a well-formed filesystem, reading an existing smoothed NIR file
succeeds. -/
theorem readFrame_of_good (fs : FS) (p : FPath) (hg : GoodFS fs)
    (hseg : lastSeg p = ("Emission_nir_smoothed.csv"))
    (hex : fs.pathExists p = true) : ∃ f, fs.readFrame p = .ok f := by
  unfold FS.pathExists at hex
  cases hd : fs.fileAt p with
  | none => rw [hd] at hex; cases hex
  | some d =>
    obtain ⟨e, hem, he1, he2⟩ := fileAt_mem fs p d hd
    have hfr : isFrameData d = true := by
      rw [← he2]
      exact (hg e hem).1 (by rw [he1]; exact hseg)
    cases d with
    | frame f => exact ⟨f, by rw [FS.readFrame, hd]⟩
    | features rs => rw [← he2] at hfr; simp [isFrameData, he2] at hfr
    | ptable t => simp [isFrameData] at hfr
    | summary t => simp [isFrameData] at hfr
    | malformed => simp [isFrameData] at hfr

/-- On a well-formed filesystem, reading an existing feature file succeeds. -/
theorem readFeatures_of_good (fs : FS) (p : FPath) (hg : GoodFS fs)
    (hseg : lastSeg p = ("Emission_features_nir.csv"))
    (hex : fs.pathExists p = true) : ∃ rs, fs.readFeatures p = .ok rs := by
  unfold FS.pathExists at hex
  cases hd : fs.fileAt p with
  | none => rw [hd] at hex; cases hex
  | some d =>
    obtain ⟨e, hem, he1, he2⟩ := fileAt_mem fs p d hd
    have hfr : isFeaturesData d = true := by
      rw [← he2]
      exact (hg e hem).2 (by rw [he1]; exact hseg)
    cases d with
    | features rs => exact ⟨rs, by rw [FS.readFeatures, hd]⟩
    | frame f => simp [isFeaturesData] at hfr
    | ptable t => simp [isFeaturesData] at hfr
    | summary t => simp [isFeaturesData] at hfr
    | malformed => simp [isFeaturesData] at hfr

/-- One standardizer band keeps the filesystem well-formed: it writes a frame
at a `*_cleaned.csv` name. -/
theorem GoodFS_stdBand (fs : FS) (rawDir outDir : FPath) (pfx2 : String) (isVis : Bool)
    (tp : List ℕ) (hg : GoodFS fs)
    (hne : (pfx2 ++ ("_cleaned.csv")) ≠ ("Emission_features_nir.csv")) :
    GoodFS (stdBand fs rawDir outDir pfx2 isVis tp) := by
  unfold stdBand
  cases stdBandFrame fs rawDir pfx2 isVis tp with
  | error e => exact hg
  | ok f =>
    refine GoodFS_write _ _ _ hg (fun _ => rfl) (fun hc => ?_)
    rw [lastSeg_append1] at hc
    exact absurd hc hne

/-- The standardizer stage keeps the filesystem well-formed. -/
theorem GoodFS_standardize (fs : FS) (dir : FPath) (folder : String)
    (table : List ReactionParams) (hg : GoodFS fs) :
    GoodFS (standardize_time_axis_fs fs dir folder table) := by
  unfold standardize_time_axis_fs
  cases lookupRun table folder with
  | none => exact hg
  | some ps =>
    dsimp only
    exact GoodFS_stdBand _ _ _ _ _ _
      (GoodFS_stdBand _ _ _ _ _ _ hg (by decide)) (by decide)

/-- One smoother band keeps the filesystem well-formed: it writes a frame at a
`*_smoothed.csv` name. -/
theorem GoodFS_smoothBand (savgol : SavGol) (w p : ℕ) (fs : FS) (inDirP outDir : FPath)
    (pfx2 : String) (hg : GoodFS fs)
    (hne : (pfx2 ++ ("_smoothed.csv")) ≠ ("Emission_features_nir.csv")) :
    GoodFS (smoothBand savgol w p fs inDirP outDir pfx2) := by
  unfold smoothBand
  dsimp only
  cases hex : fs.pathExists (inDirP ++ [pfx2 ++ ("_cleaned.csv")]) with
  | false => simp only [hex, Bool.not_false, if_true]; exact hg
  | true =>
    simp only [hex, Bool.not_true, Bool.false_eq_true, if_false]
    cases fs.readFrame (inDirP ++ [pfx2 ++ ("_cleaned.csv")]) with
    | error e => exact hg
    | ok df =>
      refine GoodFS_write _ _ _ hg (fun _ => rfl) (fun hc => ?_)
      rw [lastSeg_append1] at hc
      exact absurd hc hne

/-- The smoother stage keeps the filesystem well-formed. -/
theorem GoodFS_smoothing (savgol : SavGol) (fs : FS) (dir : FPath) (folder : String)
    (w p : ℕ) (hg : GoodFS fs) :
    GoodFS (apply_smoothing_fs savgol fs dir folder w p) := by
  unfold apply_smoothing_fs
  exact GoodFS_smoothBand _ _ _ _ _ _ _
    (GoodFS_smoothBand _ _ _ _ _ _ _ hg (by decide)) (by decide)

/-- The merger stage keeps the filesystem well-formed: it writes a frame at
`Emission_merged.csv`. -/
theorem GoodFS_merge (fs : FS) (dir : FPath) (folder : String) (hg : GoodFS fs) :
    GoodFS (merge_vis_nir_fs fs dir folder) := by
  unfold merge_vis_nir_fs
  cases hr : mergeResult fs (dir ++ [folder, ("smoothed_data")]) with
  | error e => exact hg
  | ok o =>
    cases o with
    | none => exact hg
    | some f =>
      refine GoodFS_write _ _ _ hg (fun _ => rfl) (fun hc => ?_)
      rw [lastSeg_append3] at hc
      exact absurd hc (by decide)

/-- On a well-formed filesystem, feature extraction never raises: it either
skips (no smoothed NIR file) or reads a well-formed frame and writes the
feature file, keeping the filesystem well-formed. -/
theorem extract_ok (fs : FS) (dir : FPath) (folder : String) (ithr tthr : ℚ)
    (hg : GoodFS fs) :
    ∃ fs2, extract_features_fs fs dir folder ithr tthr = .ok fs2 ∧ GoodFS fs2 := by
  unfold extract_features_fs
  dsimp only
  cases hex : fs.pathExists (dir ++ [folder, ("smoothed_data"), ("Emission_nir_smoothed.csv")]) with
  | false =>
    simp only [hex, Bool.not_false, if_true]
    exact ⟨fs, rfl, hg⟩
  | true =>
    simp only [hex, Bool.not_true, Bool.false_eq_true, if_false]
    obtain ⟨f, hf⟩ := readFrame_of_good fs _ hg (lastSeg_append3 _ _ _ _) hex
    rw [hf]
    refine ⟨fs.write (dir ++ [folder, ("Emission_features_nir.csv")])
      (.features (extractFeatures f ithr tthr)), rfl, ?_⟩
    refine GoodFS_write _ _ _ hg (fun hc => ?_) (fun _ => rfl)
    rw [lastSeg_append2] at hc
    exact absurd hc (by decide)

/-- On a well-formed filesystem, a whole per-run loop iteration succeeds and
keeps the filesystem well-formed. -/
theorem runFolder_ok (savgol : SavGol) (table : List ReactionParams) (dir : FPath)
    (fs : FS) (folder : String) (hg : GoodFS fs) :
    ∃ fs2, runFolder savgol table dir fs folder = .ok fs2 ∧ GoodFS fs2 := by
  unfold runFolder
  exact extract_ok _ _ _ _ _
    (GoodFS_merge _ _ _ (GoodFS_smoothing _ _ _ _ _ _ (GoodFS_standardize _ _ _ _ hg)))

/-- On a well-formed filesystem, the whole processing loop succeeds. -/
theorem runAll_ok (savgol : SavGol) (table : List ReactionParams) (dir : FPath) :
    ∀ (folders : List String) (fs : FS), GoodFS fs →
      ∃ fs2, runAll (runFolder savgol table dir) fs folders = .ok fs2 ∧ GoodFS fs2 := by
  intro folders
  induction folders with
  | nil => exact fun fs hg => ⟨fs, rfl, hg⟩
  | cons f rest ih =>
    intro fs hg
    obtain ⟨fs2, h1, h2⟩ := runFolder_ok savgol table dir fs f hg
    unfold runAll
    rw [h1]
    exact ih fs2 h2

/-- On a well-formed filesystem, the aggregation's collection loop succeeds. -/
theorem collectTables_ok (fs : FS) (dir : FPath) (hg : GoodFS fs) :
    ∀ folders, ∃ tables, collectTables fs dir folders = .ok tables := by
  intro folders
  induction folders with
  | nil => exact ⟨[], rfl⟩
  | cons folder rest ih =>
    obtain ⟨tables, htab⟩ := ih
    unfold collectTables
    dsimp only
    cases hex : fs.pathExists (dir ++ [folder, ("Emission_features_nir.csv")]) with
    | false =>
      simp only [hex, Bool.not_false, if_true]
      exact ⟨tables, htab⟩
    | true =>
      simp only [hex, Bool.not_true, Bool.false_eq_true, if_false]
      obtain ⟨rs, hrs⟩ := readFeatures_of_good fs _ hg (lastSeg_append2 _ _ _) hex
      rw [hrs, htab]
      exact ⟨(folder, rs) :: tables, rfl⟩

/-- Binding a successful `Except` computation runs the continuation. -/
theorem except_bind_ok {α β : Type} (a : α) (f : α → Except PyErr β) :
    (Except.ok a >>= f) = f a := rfl

/-- On a well-formed filesystem, the global compilation stage succeeds. -/
theorem compile_ok (savgol : SavGol) (fs : FS) (dir : FPath) (folders : List String)
    (w p : ℕ) (hg : GoodFS fs) :
    ∃ fs2, compile_traces_fs savgol fs dir folders w p = .ok fs2 := by
  obtain ⟨tables, ht⟩ := collectTables_ok fs dir hg folders
  unfold compile_traces_fs
  rw [ht, except_bind_ok]
  by_cases hc : tables.isEmpty = true
  · exact ⟨fs, by rw [if_pos hc]; rfl⟩
  · exact ⟨_, by rw [if_neg hc]; rfl⟩

/-- C2 (amended): data errors during time-axis standardization, smoothing,
band merging and plotting are caught at the per-run/per-band unit of work and
never abort the pipeline — on any data set whose parameters table is present
and readable and whose smoothed-NIR and feature files (the only data files
read outside a `try/except`) are well-formed, the pipeline runs to completion
no matter what malformed CSVs sit anywhere else. A missing parameters table
stops processing cleanly; a malformed CSV reaching feature extraction or trace
compilation, however, aborts the whole pipeline (see the counterexample). -/
theorem C2_error_containment (savgol : SavGol) (fs : FS) (dir : FPath) (pf : FPath)
    (table : List ReactionParams)
    (hpf : paramsFileOf fs dir = some pf)
    (hpt : fs.readPTable pf = .ok table)
    (hg : GoodFS fs) :
    ∃ fs2, main_fs savgol fs dir = .ok fs2 := by
  unfold main_fs
  rw [hpf]
  dsimp only
  rw [hpt]
  dsimp only
  obtain ⟨fs2, h1, h2⟩ := runAll_ok savgol table dir (fs.subdirs dir) fs hg
  rw [h1]
  exact compile_ok savgol fs2 dir (fs.subdirs dir) compileWindowDefault
    compilePolyorderDefault h2

/-- C2 (witness): a data set whose raw corrected NIR file is malformed: the
standardizer catches the parse failure per band and the pipeline completes. -/
theorem C2_witness : ∃ fs2, main_fs savId c2wFS [("d")] = .ok fs2 :=
  C2_error_containment savId c2wFS [("d")] [("d"), ("reaction_parameters.csv")]
    [{ reaction_id := 1, num_measurements := 4, frequency := 1 }]
    (by rfl) (by rfl) (by unfold GoodFS; decide)
